import Mathlib

/-!
# Drug verification system: formal model

A shallow embedding of the verification pipeline of the drug-verification
repository, together with theorems settling the specification claims.

* `imageHandler`, `extract_nafdac_number_ocr`, `extract_product_name_with_bedrock`
  model `src/lambda/image_processor.py` (the Extraction Stage);
* `lambda_handler`, `scrape_nafdac_greenbook`, `get_dummy_validation_result`,
  `store_verification_result` model `src/lambda/nafdac_validator_container.py`
  (the Registry Matching Stage);
* `workflowHandler` models `src/lambda/verification_workflow.py` (the Orchestrator).

External collaborators (Textract, Bedrock, the Selenium-driven registry
session, S3, DynamoDB) are modeled by their observable outcomes, passed as
explicit parameters; the DynamoDB write is modeled by returning the list of
written records.
-/

namespace DrugVerification

/-! ## Character classes

ASCII character classes of the regular expressions in
`extract_nafdac_number_ocr` and of the Python string methods used there:
the regex class `[A-Z]` under `re.IGNORECASE`, the class `\d`, the class
`\s`, the word class backing `\b`, and `str.upper`/`str.strip`.
-/

/-- ASCII lowercase letter (the range affected by Python `str.upper`). -/
def isLowerAlpha (c : Char) : Bool := 97 ≤ c.toNat && c.toNat ≤ 122

/-- ASCII uppercase letter. -/
def isUpperAlpha (c : Char) : Bool := 65 ≤ c.toNat && c.toNat ≤ 90

/-- The regex class `[A-Z]` under `re.IGNORECASE`: any ASCII letter. -/
def isLetterCh (c : Char) : Bool := isUpperAlpha c || isLowerAlpha c

/-- The regex class `\d`. -/
def isDigitCh (c : Char) : Bool := 48 ≤ c.toNat && c.toNat ≤ 57

/-- The regex class `\s` (also the character set of no-argument `str.strip`):
space, tab, newline, carriage return, vertical tab, form feed. -/
def isSpaceCh (c : Char) : Bool :=
  c.toNat = 32 || c.toNat = 9 || c.toNat = 10 || c.toNat = 13 || c.toNat = 11 || c.toNat = 12

/-- Word characters, the class behind the regex boundary assertion `\b`. -/
def isWordCh (c : Char) : Bool := isLetterCh c || isDigitCh c || c == '_'

/-- Model of Python `str.upper` on one character (ASCII range). -/
def upperCh (c : Char) : Char :=
  if isLowerAlpha c then Char.ofNat (c.toNat - 32) else c

/-! ## Python string helpers -/

/-- Remove the longest suffix of characters satisfying `p`. -/
def dropTrailWhile (p : Char → Bool) (l : List Char) : List Char :=
  (l.reverse.dropWhile p).reverse

/-- Model of Python `str.strip(chars)`: remove characters satisfying `p`
from both ends. -/
def pyStripSet (p : Char → Bool) (l : List Char) : List Char :=
  dropTrailWhile p (l.dropWhile p)

/-- Model of no-argument Python `str.strip()`: strip whitespace from both ends. -/
def pyStrip (l : List Char) : List Char := pyStripSet isSpaceCh l

/-- The quote characters stripped by `.strip on the quote set` in
`extract_product_name_with_bedrock`. -/
def isQuoteCh (c : Char) : Bool := c == '"' || c == '\''

/-- Model of `.split on a newline` followed by taking element 0: the longest
newline-free leading segment. -/
def takeFirstLine (l : List Char) : List Char := l.takeWhile (fun c => c != '\n')

/-- One step list of `re.sub` on the pattern of whitespace-hyphen-whitespace:
scanning replacement of every (maximal, greedy) occurrence by a single hyphen.
Fuel-indexed so that every evaluation reduces; `hyphenSub` supplies enough fuel. -/
def hyphenSubGo : Nat → List Char → List Char
  | 0, l => l
  | _ + 1, [] => []
  | fuel + 1, c :: rest =>
    let d := (c :: rest).dropWhile isSpaceCh
    if d.headI = '-' ∧ d ≠ [] then
      '-' :: hyphenSubGo fuel (d.tail.dropWhile isSpaceCh)
    else
      c :: hyphenSubGo fuel rest

/-- Model of `re.sub` applied to a matched group in `extract_nafdac_number_ocr`:
collapse each run of optional whitespace, hyphen, optional whitespace into `-`. -/
def hyphenSub (l : List Char) : List Char := hyphenSubGo l.length l

/-- The candidate normalization of `extract_nafdac_number_ocr`:
`match.group(0).strip().upper()` followed by the hyphen `re.sub`. -/
def normalizeMatch (m : List Char) : List Char :=
  hyphenSub ((pyStrip m).map upperCh)

/-! ## The two NAFDAC-number regexes

`extract_nafdac_number_ocr` scans each recognized line with
a letter pattern (word boundary, `[A-Z]`, one or two digits, optional
whitespace, hyphen, optional whitespace, four to six digits, word boundary,
case-insensitive) and a two-digit pattern (same with two leading digits
instead of letter-plus-digits).  The matchers below realize Python
`re.finditer` semantics for exactly these patterns: leftmost, non-overlapping
scanning with greedy quantifiers.  Because no pattern character class
overlaps its successor except as analyzed below, greedy matching reduces to
consuming maximal runs:

* `\d{1,2}` before `\s*-`: a longer digit run can never recover by
  backtracking (the next character would still be a digit, matching neither
  `\s` nor `-`), so a match requires the full digit run to have length 1 or 2;
* `\d{4,6}\b`: any proper prefix of the digit run is followed by a digit,
  which is a word character, so `\b` fails; a match requires the full run to
  have length 4 to 6 and the following character (if any) to be a non-word
  character.
-/

/-- Is the next position a word boundary, given the remaining text?
Used for the trailing `\b` of both patterns (the consumed character before
the position is always a digit, hence a word character). -/
def boundaryAfter (l : List Char) : Bool :=
  match l with
  | [] => true
  | c :: _ => !isWordCh c

/-- Matcher for the common tail of both patterns: optional whitespace,
hyphen, optional whitespace, four to six digits, word boundary.  Returns
the consumed characters and the remaining text. -/
def matchTail (l : List Char) : Option (List Char × List Char) :=
  let w1 := l.takeWhile isSpaceCh
  let d := l.dropWhile isSpaceCh
  if d.headI = '-' ∧ d ≠ [] then
    let w2 := d.tail.takeWhile isSpaceCh
    let r3 := d.tail.dropWhile isSpaceCh
    let ds := r3.takeWhile isDigitCh
    let r4 := r3.dropWhile isDigitCh
    if 4 ≤ ds.length ∧ ds.length ≤ 6 ∧ boundaryAfter r4 = true then
      some (w1 ++ '-' :: (w2 ++ ds), r4)
    else none
  else none

/-- Matcher for the letter pattern at the current position (the leading `\b`
is checked by the scanner): an ASCII letter, one or two digits, then the
common tail. -/
def matchNrAlpha (l : List Char) : Option (List Char × List Char) :=
  if isLetterCh l.headI = true ∧ l ≠ [] then
    let ds := l.tail.takeWhile isDigitCh
    if 1 ≤ ds.length ∧ ds.length ≤ 2 then
      (matchTail (l.tail.dropWhile isDigitCh)).map
        (fun p => (l.headI :: (ds ++ p.1), p.2))
    else none
  else none

/-- Matcher for the two-digit pattern at the current position: two digits,
then the common tail. -/
def matchNrNum (l : List Char) : Option (List Char × List Char) :=
  if isDigitCh l.headI = true ∧ isDigitCh l.tail.headI = true ∧ 2 ≤ l.length then
    (matchTail l.tail.tail).map
      (fun p => (l.headI :: l.tail.headI :: p.1, p.2))
  else none

/-- Does the character before the current position (if any) fail to be a word
character?  Combined with the fact that both patterns begin with a word
character, this realizes the leading `\b`. -/
def noWordBefore : Option Char → Bool
  | none => true
  | some p => !isWordCh p

/-- Model of `re.finditer`: scan left to right; at each position whose
predecessor is not a word character, try the matcher; on a match, emit it
and resume after it (non-overlapping); otherwise advance one character.
Fuel-indexed; `pyFinditer` supplies enough fuel. -/
def finditerGo (matchAt : List Char → Option (List Char × List Char)) :
    Nat → Option Char → List Char → List (List Char)
  | 0, _, _ => []
  | _ + 1, _, [] => []
  | fuel + 1, prev, c :: rest =>
    if noWordBefore prev then
      match matchAt (c :: rest) with
      | some (m, r) => m :: finditerGo matchAt fuel (some (m.getLastD c)) r
      | none => finditerGo matchAt fuel (some c) rest
    else finditerGo matchAt fuel (some c) rest

/-- All matches of `matchAt` in `l`, in scan order. -/
def pyFinditer (matchAt : List Char → Option (List Char × List Char))
    (l : List Char) : List (List Char) :=
  finditerGo matchAt l.length none l

/-- All regex matches collected from one recognized line, in the source's
order: every match of the letter pattern, then every match of the two-digit
pattern. -/
def lineMatches (text : String) : List (List Char) :=
  pyFinditer matchNrAlpha text.data ++ pyFinditer matchNrNum text.data

/-! ## Extraction Stage (`src/lambda/image_processor.py`) -/

/-- Python truthiness of an optional string: `None` and the empty string are
falsy. -/
def pyTruthy : Option String → Bool
  | none => false
  | some s => s != ""

/-- Python `a or b` on optional strings: the first operand if truthy,
otherwise the second. -/
def pyOr (a b : Option String) : Option String :=
  if pyTruthy a then a else b

/-- One block of the Textract `detect_document_text` response; `blockType`
models `BlockType` (lines carry `"LINE"`), `confidence` the per-line
`Confidence` score. -/
structure TextBlock where
  blockType : String
  text : String
  confidence : ℚ
deriving DecidableEq

/-- A pattern match recorded by `extract_nafdac_number_ocr`: the normalized
number together with its line's recognition confidence. -/
structure NafdacCandidate where
  number : String
  confidence : ℚ
deriving DecidableEq

/-- The blocks of type LINE, in response order. -/
def lineBlocks (blocks : List TextBlock) : List TextBlock :=
  blocks.filter (fun b => b.blockType == "LINE")

/-- All candidates collected by `extract_nafdac_number_ocr`, in scan order:
for each LINE block, every match of the letter pattern, then every match of
the two-digit pattern, each normalized. -/
def nafdacCandidates (blocks : List TextBlock) : List NafdacCandidate :=
  (lineBlocks blocks).flatMap
    (fun b => (lineMatches b.text).map
      (fun m => ⟨(normalizeMatch m).asString, b.confidence⟩))

/-- Python `max(candidates, key=confidence)`: the first element attaining the
maximal confidence (`max` only replaces the current best on a strictly larger
key). -/
def pyMaxConf (l : List NafdacCandidate) : Option NafdacCandidate :=
  match l with
  | [] => none
  | c :: rest =>
    some (rest.foldl (fun best x => if best.confidence < x.confidence then x else best) c)

/-- Outcome of the Bedrock `invoke_model` call in
`extract_product_name_with_bedrock`: the model's output text, or any
exception (service error, timeout, malformed output). -/
inductive BedrockOutcome where
  | ok (output : String)
  | error
deriving DecidableEq

/-- Model of `extract_product_name_with_bedrock`: on success the response
text is stripped of surrounding whitespace, then of surrounding quotes, and
truncated at the first newline; an empty result or any exception yields
`none` (the function catches every exception and returns `None`). -/
def extract_product_name_with_bedrock (outcome : BedrockOutcome) : Option String :=
  match outcome with
  | .error => none
  | .ok output =>
    let productName := (takeFirstLine (pyStripSet isQuoteCh (pyStrip output.data))).asString
    if productName = "" then none else some productName

/-- The dictionary returned by `extract_nafdac_number_ocr`. -/
structure OcrResult where
  nafdacNumber : Option String
  confidence : Option ℚ
  allText : Option String
  productName : Option String
deriving DecidableEq

/-- Model of `extract_nafdac_number_ocr`.  The Textract call is modeled by
its outcome (`.error` for any exception, otherwise the returned blocks),
`hasImage` models the truthiness of the `image_data` argument, and `bedrock`
the Bedrock call's outcome.  On an exception every field degrades to
null/empty; otherwise the best candidate (if any) is returned, else the
Bedrock fallback is consulted. -/
def extract_nafdac_number_ocr (textract : Except Unit (List TextBlock))
    (hasImage : Bool) (bedrock : BedrockOutcome) : OcrResult :=
  match textract with
  | .error _ => ⟨none, none, some "", none⟩
  | .ok blocks =>
    let fullText := String.intercalate " " ((lineBlocks blocks).map (fun b => b.text))
    match pyMaxConf (nafdacCandidates blocks) with
    | some best => ⟨some best.number, some best.confidence, some fullText, none⟩
    | none =>
      ⟨none, none, some fullText,
        if hasImage then extract_product_name_with_bedrock bedrock else none⟩

/-- The request body parsed by the image-processor handler. -/
structure ImageRequest where
  image : String
  nafdacNumber : Option String
deriving DecidableEq

/-- The JSON payload of a successful image-processor response. -/
structure ExtractionResponse where
  verificationId : String
  timestamp : String
  imageKey : String
  nafdacNumber : Option String
  productName : Option String
  ocrConfidence : Option ℚ
  extractedText : Option String
deriving DecidableEq

/-- The image-processor handler's return dictionary: status code plus either
an error message (400/500) or the extraction payload (200). -/
structure ImageHandlerOutput where
  statusCode : Nat
  error : Option String
  resp : Option ExtractionResponse
deriving DecidableEq

/-- Model of the image-processor `handler`.  `verificationId` and
`timestamp` model the generated `uuid.uuid4()` and `datetime.utcnow()`
values.  Returns the response together with a flag recording whether text
recognition (`extract_nafdac_number_ocr`) was invoked. -/
def imageHandler (req : ImageRequest) (verificationId timestamp : String)
    (textract : Except Unit (List TextBlock)) (bedrock : BedrockOutcome) :
    ImageHandlerOutput × Bool :=
  if req.image = "" then
    ({ statusCode := 400, error := some "Missing image data", resp := none }, false)
  else
    let s3Key := "images/" ++ timestamp ++ "_" ++ verificationId ++ ".jpg"
    let ocrResult :=
      if pyTruthy req.nafdacNumber then
        OcrResult.mk req.nafdacNumber none none none
      else
        extract_nafdac_number_ocr textract true bedrock
    ({ statusCode := 200, error := none,
       resp := some
         { verificationId := verificationId, timestamp := timestamp, imageKey := s3Key,
           nafdacNumber := ocrResult.nafdacNumber, productName := ocrResult.productName,
           ocrConfidence := ocrResult.confidence, extractedText := ocrResult.allText } },
     !pyTruthy req.nafdacNumber)

/-! ## Registry Matching Stage (`src/lambda/nafdac_validator_container.py`) -/

/-- One parsed row of the registry's results table. -/
structure ProductRow where
  product_name : String
  active_ingredients : String
  product_category : String
  nrn : String
  rowStatus : String
deriving DecidableEq

/-- The verdict dictionary produced by the Matching Stage; keys absent from a
given return path are `none`. -/
structure ValidationResult where
  success : Bool
  searchTerm : Option String
  searchType : Option String
  nafdacNumber : Option String
  found : Option Bool
  results : Option (List ProductRow)
  message : Option String
deriving DecidableEq

/-- Observable outcome of the Selenium-driven registry session in
`scrape_nafdac_greenbook`: an exception anywhere while driving the session
(navigation failure, element not found, browser crash, network error), a
timeout of the bounded wait for the results table, or the rows of the table
(each row its list of cell texts). -/
inductive SessionOutcome where
  | raises
  | timeoutNoResults
  | table (rows : List (List String))
deriving DecidableEq

/-- Model of the row parsing in `scrape_nafdac_greenbook`: rows with at
least ten cells contribute a record from cells 0, 1, 2, 3 and 9 (each
stripped); shorter rows are skipped. -/
def parseRow (cells : List String) : Option ProductRow :=
  if 10 ≤ cells.length then
    some { product_name := (pyStrip (cells.getD 0 "").data).asString,
           active_ingredients := (pyStrip (cells.getD 1 "").data).asString,
           product_category := (pyStrip (cells.getD 2 "").data).asString,
           nrn := (pyStrip (cells.getD 3 "").data).asString,
           rowStatus := (pyStrip (cells.getD 9 "").data).asString }
  else none

/-- Model of `get_dummy_validation_result`, the closed-form fallback used
when the registry session raises: canned found-result for the hardcoded
number, otherwise a not-found verdict; `success` is `True` in both branches. -/
def get_dummy_validation_result (nafdacNumber : Option String) : ValidationResult :=
  if nafdacNumber = some "A4-101466" then
    { success := true, searchTerm := none, searchType := none,
      nafdacNumber := nafdacNumber, found := some true,
      results := some [{ product_name := "Paracetamol 500mg Tablets",
                         active_ingredients := "Paracetamol",
                         product_category := "Drugs", nrn := "A4-101466",
                         rowStatus := "Active" }],
      message := none }
  else
    { success := true, searchTerm := none, searchType := none,
      nafdacNumber := nafdacNumber, found := some false, results := none,
      message := some "Product not found in NAFDAC Greenbook" }

/-- Model of `scrape_nafdac_greenbook`.  With neither search term present
(both falsy) it returns the no-search verdict with `success = False`.
Otherwise the search field and type are chosen (number search has priority),
and the session outcome decides among the timeout not-found verdict, parsing
the table rows, or the exception fallback `get_dummy_validation_result`
applied to `nafdac_number or product_name`. -/
def scrape_nafdac_greenbook (nafdacNumber productName : Option String)
    (session : SessionOutcome) : ValidationResult :=
  if !pyTruthy nafdacNumber && !pyTruthy productName then
    { success := false, searchTerm := none, searchType := none, nafdacNumber := none,
      found := none, results := none,
      message := some "No NAFDAC number or product name provided" }
  else
    let searchTerm := if pyTruthy nafdacNumber then nafdacNumber.getD "" else productName.getD ""
    let searchType := if pyTruthy nafdacNumber then "NAFDAC number" else "product name"
    match session with
    | .raises => get_dummy_validation_result (pyOr nafdacNumber productName)
    | .timeoutNoResults =>
      { success := true, searchTerm := some searchTerm, searchType := some searchType,
        nafdacNumber := nafdacNumber, found := some false, results := none,
        message := some ("Product not found in NAFDAC Greenbook (searched by "
          ++ searchType ++ ")") }
    | .table rows =>
      let results := rows.filterMap parseRow
      if results.isEmpty then
        { success := true, searchTerm := some searchTerm, searchType := some searchType,
          nafdacNumber := nafdacNumber, found := some false, results := none,
          message := some ("Product not found in NAFDAC Greenbook (searched by "
            ++ searchType ++ ")") }
      else
        { success := true, searchTerm := some searchTerm, searchType := some searchType,
          nafdacNumber := nafdacNumber, found := some true, results := some results,
          message := none }

/-- The DynamoDB item written by `store_verification_result`; `ttl` models
the numeric time-to-live attribute, `nafdacNumber = none` models the
attribute being omitted from the item. -/
structure VerificationRecord where
  verificationId : String
  timestamp : String
  imageKey : Option String
  nafdacNumber : Option String
  validationResult : ValidationResult
  ttl : Nat
deriving DecidableEq

/-- Model of `store_verification_result`: builds the item with a 90-day
time-to-live from `now` (the value of `int(datetime.utcnow().timestamp())`);
the `nafdacNumber` attribute is added only when the number is truthy. -/
def store_verification_result (verificationId timestamp : String)
    (imageKey : Option String) (nafdacNumber : Option String)
    (validationResult : ValidationResult) (now : Nat) : VerificationRecord :=
  { verificationId := verificationId, timestamp := timestamp, imageKey := imageKey,
    nafdacNumber := if pyTruthy nafdacNumber then nafdacNumber else none,
    validationResult := validationResult,
    ttl := now + 90 * 24 * 60 * 60 }

/-- The request body parsed by the validator handler. -/
structure ValidatorRequest where
  verificationId : Option String
  timestamp : Option String
  imageKey : Option String
  nafdacNumber : Option String
  productName : Option String
deriving DecidableEq

/-- The JSON payload of a successful validator response. -/
structure ValidatorResponse where
  verificationId : String
  timestamp : String
  imageKey : Option String
  nafdacNumber : Option String
  validationResult : ValidationResult
deriving DecidableEq

/-- The validator handler's return dictionary: the 200 payload or the 400
missing-fields error. -/
inductive ValidatorOutput where
  | ok (resp : ValidatorResponse)
  | badRequest (error : String)
deriving DecidableEq

/-- Model of the validator `lambda_handler`.  Besides the response, the
second component collects the records written to DynamoDB during the call. -/
def lambda_handler (body : ValidatorRequest) (session : SessionOutcome)
    (now : Nat) : ValidatorOutput × List VerificationRecord :=
  if !pyTruthy body.verificationId || !pyTruthy body.timestamp then
    (.badRequest "Missing required fields", [])
  else
    let validationResult :=
      if pyTruthy body.nafdacNumber || pyTruthy body.productName then
        scrape_nafdac_greenbook body.nafdacNumber body.productName session
      else
        { success := false, searchTerm := none, searchType := none,
          nafdacNumber := none, found := none, results := none,
          message := some "No NAFDAC number or product name provided" }
    let record := store_verification_result (body.verificationId.getD "")
      (body.timestamp.getD "") body.imageKey body.nafdacNumber validationResult now
    (.ok { verificationId := body.verificationId.getD "",
           timestamp := body.timestamp.getD "", imageKey := body.imageKey,
           nafdacNumber := body.nafdacNumber, validationResult := validationResult },
     [record])

/-! ## Orchestrator (`src/lambda/verification_workflow.py`) -/

/-- Observable outcome of invoking the validator lambda from the workflow:
a transport-level exception, a `FunctionError` in the invoke response, or a
normal payload. -/
inductive WorkflowDownstream where
  | transportError (details : String)
  | functionError (payload : String)
  | ok (resp : ValidatorOutput)
deriving DecidableEq

/-- The workflow's result: the extraction response surfaced verbatim on
short-circuit, the validator's response, or a 500 wrapper for a failed
validator invocation. -/
inductive WorkflowOutput where
  | fromExtraction (r : ImageHandlerOutput)
  | fromValidator (r : ValidatorOutput)
  | validatorFailed (details : String)
deriving DecidableEq

/-- Model of the workflow `handler` after the image-processor invocation
returned `imageResult`: a non-200 extraction status is returned verbatim
without invoking the validator; otherwise the validator is invoked and its
outcome propagated.  The second component records whether the validator was
invoked. -/
def workflowHandler (imageResult : ImageHandlerOutput)
    (validator : WorkflowDownstream) : WorkflowOutput × Bool :=
  if imageResult.statusCode ≠ 200 then (.fromExtraction imageResult, false)
  else
    match validator with
    | .functionError payload => (.validatorFailed payload, true)
    | .transportError details => (.validatorFailed details, true)
    | .ok resp => (.fromValidator resp, true)

/-! ## Shape of a regex match

Every string matched by either NAFDAC pattern decomposes as a non-empty
word-character segment (letter plus digits, or two digits), optional
whitespace, a hyphen, optional whitespace, and a non-empty digit suffix. -/

/-- Decomposition of a matched substring `m` into its word-character head
`pre`, the whitespace runs `w1`, `w2` around the hyphen, and the digit
suffix `ds`. -/
def MatchShape (pre w1 w2 ds m : List Char) : Prop :=
  m = pre ++ (w1 ++ '-' :: (w2 ++ ds)) ∧ pre ≠ [] ∧ ds ≠ [] ∧
  (∀ c ∈ pre, isWordCh c = true) ∧
  (∀ c ∈ w1, isSpaceCh c = true) ∧ (∀ c ∈ w2, isSpaceCh c = true) ∧
  (∀ c ∈ ds, isDigitCh c = true)

/-! ## Character-class lemmas -/

lemma toNat_ofNat_small {n : Nat} (h : n < 55296) : (Char.ofNat n).toNat = n := by
  have hv : n.isValidChar := Or.inl h
  rw [Char.ofNat, dif_pos hv]
  simp [Char.ofNatAux, Char.toNat, UInt32.toNat, BitVec.ofNatLt]

lemma ne_of_toNat_ne {c d : Char} (h : c.toNat ≠ d.toNat) : c ≠ d := by
  intro he
  exact h (by rw [he])

/-- Case analysis of `upperCh`: either the character was a lowercase letter
and the code point dropped by 32, or it is returned unchanged. -/
lemma upperCh_spec (c : Char) :
    (isLowerAlpha c = true ∧ (upperCh c).toNat = c.toNat - 32) ∨
    (isLowerAlpha c = false ∧ upperCh c = c) := by
  by_cases h : isLowerAlpha c = true
  · have hb : 97 ≤ c.toNat ∧ c.toNat ≤ 122 := by
      simpa [isLowerAlpha] using h
    left
    refine ⟨h, ?_⟩
    rw [upperCh, if_pos h]
    exact toNat_ofNat_small (by omega)
  · right
    rw [upperCh, if_neg h]
    simp at h
    exact ⟨h, rfl⟩

lemma isWordCh_toNat {c : Char} (h : isWordCh c = true) :
    (65 ≤ c.toNat ∧ c.toNat ≤ 90) ∨ (97 ≤ c.toNat ∧ c.toNat ≤ 122) ∨
    (48 ≤ c.toNat ∧ c.toNat ≤ 57) ∨ c.toNat = 95 := by
  simp only [isWordCh, isLetterCh, isUpperAlpha, isLowerAlpha, isDigitCh,
    Bool.or_eq_true, Bool.and_eq_true, decide_eq_true_eq, beq_iff_eq] at h
  rcases h with ((h | h) | h) | h
  · exact Or.inl h
  · exact Or.inr (Or.inl h)
  · exact Or.inr (Or.inr (Or.inl h))
  · subst h
    refine Or.inr (Or.inr (Or.inr (by decide)))

lemma isSpaceCh_toNat {c : Char} (h : isSpaceCh c = true) :
    c.toNat = 32 ∨ c.toNat = 9 ∨ c.toNat = 10 ∨ c.toNat = 13 ∨
    c.toNat = 11 ∨ c.toNat = 12 := by
  simpa [isSpaceCh, or_assoc] using h

lemma isDigitCh_toNat {c : Char} (h : isDigitCh c = true) :
    48 ≤ c.toNat ∧ c.toNat ≤ 57 := by
  simpa [isDigitCh] using h

lemma isSpaceCh_of_word {c : Char} (h : isWordCh c = true) : isSpaceCh c = false := by
  have := isWordCh_toNat h
  simp only [isSpaceCh, Bool.or_eq_false_iff, decide_eq_false_iff_not]
  omega

lemma isSpaceCh_of_digit {c : Char} (h : isDigitCh c = true) : isSpaceCh c = false := by
  have := isDigitCh_toNat h
  simp only [isSpaceCh, Bool.or_eq_false_iff, decide_eq_false_iff_not]
  omega

lemma digit_ne_hyphen {c : Char} (h : isDigitCh c = true) : c ≠ '-' := by
  have h1 := isDigitCh_toNat h
  have h45 : ('-' : Char).toNat = 45 := by decide
  exact ne_of_toNat_ne (by omega)

lemma upperCh_of_space {c : Char} (h : isSpaceCh c = true) : upperCh c = c := by
  rcases upperCh_spec c with ⟨hl, -⟩ | ⟨-, he⟩
  · have h1 := isSpaceCh_toNat h
    have h2 : 97 ≤ c.toNat ∧ c.toNat ≤ 122 := by simpa [isLowerAlpha] using hl
    omega
  · exact he

lemma upperCh_of_digit {c : Char} (h : isDigitCh c = true) : upperCh c = c := by
  rcases upperCh_spec c with ⟨hl, -⟩ | ⟨-, he⟩
  · have h1 := isDigitCh_toNat h
    have h2 : 97 ≤ c.toNat ∧ c.toNat ≤ 122 := by simpa [isLowerAlpha] using hl
    omega
  · exact he

lemma isLowerAlpha_upperCh (c : Char) : isLowerAlpha (upperCh c) = false := by
  rcases upperCh_spec c with ⟨hl, ht⟩ | ⟨hl, he⟩
  · have h2 : 97 ≤ c.toNat ∧ c.toNat ≤ 122 := by simpa [isLowerAlpha] using hl
    simp only [isLowerAlpha, Bool.and_eq_false_iff, decide_eq_false_iff_not]
    omega
  · rw [he]; exact hl

lemma upperCh_word_not_space {c : Char} (h : isWordCh c = true) :
    isSpaceCh (upperCh c) = false := by
  rcases upperCh_spec c with ⟨hl, ht⟩ | ⟨-, he⟩
  · have h2 : 97 ≤ c.toNat ∧ c.toNat ≤ 122 := by simpa [isLowerAlpha] using hl
    simp only [isSpaceCh, Bool.or_eq_false_iff, decide_eq_false_iff_not]
    omega
  · rw [he]; exact isSpaceCh_of_word h

lemma upperCh_word_ne_hyphen {c : Char} (h : isWordCh c = true) :
    upperCh c ≠ '-' := by
  have h45 : ('-' : Char).toNat = 45 := by decide
  rcases upperCh_spec c with ⟨hl, ht⟩ | ⟨-, he⟩
  · have h2 : 97 ≤ c.toNat ∧ c.toNat ≤ 122 := by simpa [isLowerAlpha] using hl
    exact ne_of_toNat_ne (by omega)
  · rw [he]
    have := isWordCh_toNat h
    exact ne_of_toNat_ne (by omega)

lemma word_of_letter {c : Char} (h : isLetterCh c = true) : isWordCh c = true := by
  simp [isWordCh, h]

lemma word_of_digit {c : Char} (h : isDigitCh c = true) : isWordCh c = true := by
  simp [isWordCh, h]

lemma isLowerAlpha_of_digit {c : Char} (h : isDigitCh c = true) :
    isLowerAlpha c = false := by
  have := isDigitCh_toNat h
  simp only [isLowerAlpha, Bool.and_eq_false_iff, decide_eq_false_iff_not]
  omega

/-! ## Python string-helper lemmas -/

lemma dropWhile_eq_self_of_head {p : Char → Bool} {l : List Char}
    (h : ∀ c ∈ l.head?, p c = false) : l.dropWhile p = l := by
  cases l with
  | nil => rfl
  | cons a rest =>
    rw [List.dropWhile_cons, if_neg]
    simp [h a (by simp)]

lemma pyStrip_eq_self {l : List Char}
    (h1 : ∀ c ∈ l.head?, isSpaceCh c = false)
    (h2 : ∀ c ∈ l.getLast?, isSpaceCh c = false) : pyStrip l = l := by
  unfold pyStrip pyStripSet dropTrailWhile
  rw [dropWhile_eq_self_of_head h1, dropWhile_eq_self_of_head, List.reverse_reverse]
  rw [List.head?_reverse]
  exact h2

lemma map_upperCh_id {l : List Char} (h : ∀ c ∈ l, upperCh c = c) :
    l.map upperCh = l := by
  induction l with
  | nil => rfl
  | cons a rest ih =>
    rw [List.map_cons, h a (by simp), ih (fun c hc => h c (List.mem_cons_of_mem _ hc))]

lemma dropWhile_append_all {w t : List Char} (hw : ∀ c ∈ w, isSpaceCh c = true) :
    (w ++ t).dropWhile isSpaceCh = t.dropWhile isSpaceCh := by
  rw [List.dropWhile_append, List.dropWhile_eq_nil_iff.mpr hw]
  simp

/-! ## Lemmas about the hyphen re.sub model -/

lemma hyphenSubGo_id : ∀ (fuel : Nat) (l : List Char),
    (∀ c ∈ l, isSpaceCh c = false ∧ c ≠ '-') → l.length ≤ fuel →
    hyphenSubGo fuel l = l := by
  intro fuel
  induction fuel with
  | zero => intro l _ _; rfl
  | succ k ih =>
    intro l h hf
    cases l with
    | nil => rfl
    | cons c rest =>
      have hc := h c (by simp)
      have hd : (c :: rest).dropWhile isSpaceCh = c :: rest :=
        dropWhile_eq_self_of_head (by simp [hc.1])
      simp only [hyphenSubGo, hd]
      have hlen : rest.length ≤ k := by
        simp only [List.length_cons] at hf
        omega
      rw [if_neg (by simp [hc.2]), ih rest
        (fun x hx => h x (List.mem_cons_of_mem _ hx)) hlen]

/-- The scanner collapses a whitespace-hyphen-whitespace run framed by
hyphen-free, whitespace-free segments to a bare hyphen. -/
lemma hyphenSubGo_shape : ∀ (u : List Char) (fuel : Nat) (w1 w2 v : List Char),
    (∀ c ∈ u, isSpaceCh c = false ∧ c ≠ '-') →
    (∀ c ∈ w1, isSpaceCh c = true) → (∀ c ∈ w2, isSpaceCh c = true) →
    (∀ c ∈ v, isSpaceCh c = false ∧ c ≠ '-') →
    (u ++ (w1 ++ '-' :: (w2 ++ v))).length ≤ fuel →
    hyphenSubGo fuel (u ++ (w1 ++ '-' :: (w2 ++ v))) = u ++ '-' :: v := by
  intro u
  induction u with
  | nil =>
    intro fuel w1 w2 v _ hw1 hw2 hv hf
    rw [List.nil_append] at hf ⊢
    have hlen : 1 ≤ (w1 ++ '-' :: (w2 ++ v)).length := by
      simp only [List.length_append, List.length_cons]
      omega
    cases fuel with
    | zero => omega
    | succ k =>
      obtain ⟨c, rest, hl⟩ : ∃ c rest, w1 ++ '-' :: (w2 ++ v) = c :: rest := by
        cases hw : w1 ++ '-' :: (w2 ++ v) with
        | nil => simp at hw
        | cons c rest => exact ⟨c, rest, rfl⟩
      have hd : (c :: rest).dropWhile isSpaceCh = '-' :: (w2 ++ v) := by
        rw [← hl, dropWhile_append_all hw1, List.dropWhile_cons, if_neg (by decide)]
      have hd2 : (w2 ++ v).dropWhile isSpaceCh = v := by
        rw [dropWhile_append_all hw2]
        exact dropWhile_eq_self_of_head
          (fun x hx => (hv x (List.mem_of_mem_head? hx)).1)
      have hvlen : v.length ≤ k := by
        simp only [List.length_append, List.length_cons] at hf
        omega
      rw [hl]
      simp only [hyphenSubGo, hd]
      rw [if_pos (by simp), List.tail_cons, hd2, hyphenSubGo_id k v hv hvlen]
      rfl
  | cons a u' ih =>
    intro fuel w1 w2 v hu hw1 hw2 hv hf
    have ha := hu a (by simp)
    cases fuel with
    | zero => simp only [List.cons_append, List.length_cons] at hf; omega
    | succ k =>
      have hd : (a :: (u' ++ (w1 ++ '-' :: (w2 ++ v)))).dropWhile isSpaceCh =
          a :: (u' ++ (w1 ++ '-' :: (w2 ++ v))) :=
        dropWhile_eq_self_of_head (by simp [ha.1])
      have hcond : ¬((a :: (u' ++ (w1 ++ '-' :: (w2 ++ v)))).headI = '-' ∧
          a :: (u' ++ (w1 ++ '-' :: (w2 ++ v))) ≠ []) := by
        intro hc
        exact ha.2 (by simpa using hc.1)
      have hk : (u' ++ (w1 ++ '-' :: (w2 ++ v))).length ≤ k := by
        simp only [List.cons_append, List.length_cons] at hf
        omega
      simp only [List.cons_append, List.append_eq, hyphenSubGo, hd]
      rw [if_neg hcond,
        ih k w1 w2 v (fun x hx => hu x (List.mem_cons_of_mem _ hx)) hw1 hw2 hv hk]

/-- `re.sub` on a string of the matched shape: the upper-cased head and the
digit suffix survive, the whitespace around the hyphen is collapsed. -/
lemma hyphenSub_shape {u w1 w2 v : List Char}
    (hu : ∀ c ∈ u, isSpaceCh c = false ∧ c ≠ '-')
    (hw1 : ∀ c ∈ w1, isSpaceCh c = true) (hw2 : ∀ c ∈ w2, isSpaceCh c = true)
    (hv : ∀ c ∈ v, isSpaceCh c = false ∧ c ≠ '-') :
    hyphenSub (u ++ (w1 ++ '-' :: (w2 ++ v))) = u ++ '-' :: v :=
  hyphenSubGo_shape u _ w1 w2 v hu hw1 hw2 hv le_rfl

/-! ## Matcher soundness -/

lemma matchTail_spec {l m r : List Char} (h : matchTail l = some (m, r)) :
    ∃ w1 w2 ds, m = w1 ++ '-' :: (w2 ++ ds) ∧
      (∀ c ∈ w1, isSpaceCh c = true) ∧ (∀ c ∈ w2, isSpaceCh c = true) ∧
      (∀ c ∈ ds, isDigitCh c = true) ∧ ds ≠ [] := by
  simp only [matchTail] at h
  split at h
  · split at h
    · rename_i hlen
      obtain ⟨hm, -⟩ := Prod.mk.injEq .. ▸ Option.some_inj.mp h
      refine ⟨l.takeWhile isSpaceCh,
        ((l.dropWhile isSpaceCh).tail).takeWhile isSpaceCh,
        (((l.dropWhile isSpaceCh).tail).dropWhile isSpaceCh).takeWhile isDigitCh,
        hm.symm, ?_, ?_, ?_, ?_⟩
      · exact fun c hc => List.mem_takeWhile_imp hc
      · exact fun c hc => List.mem_takeWhile_imp hc
      · exact fun c hc => List.mem_takeWhile_imp hc
      · intro hnil
        rw [hnil] at hlen
        simp at hlen
    · exact absurd h (by simp)
  · exact absurd h (by simp)

lemma matchNrAlpha_spec {l m r : List Char} (h : matchNrAlpha l = some (m, r)) :
    ∃ pre w1 w2 ds, MatchShape pre w1 w2 ds m := by
  simp only [matchNrAlpha] at h
  split at h
  · rename_i hhead
    split at h
    · rename_i hds
      rcases Option.map_eq_some'.mp h with ⟨⟨mt, r2⟩, hmt, heq⟩
      obtain ⟨hm, -⟩ := Prod.mk.injEq .. ▸ heq
      obtain ⟨w1, w2, ds, hmt_eq, hw1, hw2, hds', hne⟩ := matchTail_spec hmt
      refine ⟨l.headI :: l.tail.takeWhile isDigitCh, w1, w2, ds, ?_, by simp, hne,
        ?_, hw1, hw2, hds'⟩
      · rw [← hm, hmt_eq]
        simp
      · intro c hc
        rcases List.mem_cons.mp hc with hc | hc
        · exact hc ▸ word_of_letter hhead.1
        · exact word_of_digit (List.mem_takeWhile_imp hc)
    · exact absurd h (by simp)
  · exact absurd h (by simp)

lemma matchNrNum_spec {l m r : List Char} (h : matchNrNum l = some (m, r)) :
    ∃ pre w1 w2 ds, MatchShape pre w1 w2 ds m := by
  simp only [matchNrNum] at h
  split at h
  · rename_i hcond
    rcases Option.map_eq_some'.mp h with ⟨⟨mt, r2⟩, hmt, heq⟩
    obtain ⟨hm, -⟩ := Prod.mk.injEq .. ▸ heq
    obtain ⟨w1, w2, ds, hmt_eq, hw1, hw2, hds', hne⟩ := matchTail_spec hmt
    refine ⟨[l.headI, l.tail.headI], w1, w2, ds, ?_, by simp, hne, ?_, hw1, hw2, hds'⟩
    · rw [← hm, hmt_eq]
      simp
    · intro c hc
      rcases List.mem_cons.mp hc with hc | hc
      · exact hc ▸ word_of_digit hcond.1
      · rcases List.mem_cons.mp hc with hc | hc
        · exact hc ▸ word_of_digit hcond.2.1
        · simp at hc
  · exact absurd h (by simp)

lemma finditerGo_sound {matchAt : List Char → Option (List Char × List Char)} :
    ∀ (fuel : Nat) (prev : Option Char) (l m : List Char),
    m ∈ finditerGo matchAt fuel prev l → ∃ s r, matchAt s = some (m, r) := by
  intro fuel
  induction fuel with
  | zero => intro prev l m hm; simp [finditerGo] at hm
  | succ k ih =>
    intro prev l m hm
    cases l with
    | nil => simp [finditerGo] at hm
    | cons c rest =>
      simp only [finditerGo] at hm
      split at hm
      · split at hm
        · rename_i mm rr hma
          rcases List.mem_cons.mp hm with hm | hm
          · exact ⟨c :: rest, rr, by rw [hma, hm]⟩
          · exact ih _ _ _ hm
        · exact ih _ _ _ hm
      · exact ih _ _ _ hm

/-- Every match collected from a recognized line has the matched shape. -/
lemma lineMatches_shape {text : String} {m : List Char} (hm : m ∈ lineMatches text) :
    ∃ pre w1 w2 ds, MatchShape pre w1 w2 ds m := by
  rcases List.mem_append.mp hm with h | h
  · obtain ⟨s, r, hsr⟩ := finditerGo_sound _ _ _ _ h
    exact matchNrAlpha_spec hsr
  · obtain ⟨s, r, hsr⟩ := finditerGo_sound _ _ _ _ h
    exact matchNrNum_spec hsr

/-! ## Normalization of a matched substring -/

/-- On a string of the matched shape, `strip` is the identity, `upper` fixes
everything but the word-character head, and the `re.sub` collapses the
hyphen: the normalized candidate is the upper-cased head, a bare hyphen and
the digit suffix. -/
lemma normalizeMatch_of_shape {pre w1 w2 ds m : List Char}
    (h : MatchShape pre w1 w2 ds m) :
    normalizeMatch m = pre.map upperCh ++ '-' :: ds := by
  obtain ⟨hm, hpre_ne, hds_ne, hpre, hw1, hw2, hds⟩ := h
  subst hm
  have hstrip : pyStrip (pre ++ (w1 ++ '-' :: (w2 ++ ds))) =
      pre ++ (w1 ++ '-' :: (w2 ++ ds)) := by
    apply pyStrip_eq_self
    · intro x hx
      cases pre with
      | nil => exact absurd rfl hpre_ne
      | cons a pre' =>
        have hax : a = x := by simpa using hx
        exact hax ▸ isSpaceCh_of_word (hpre a (by simp))
    · intro c hc
      have hds_app : w2 ++ ds ≠ [] := by
        simp [hds_ne]
      rw [List.getLast?_append_of_ne_nil pre (by simp),
        List.getLast?_append_of_ne_nil w1 (by simp),
        show ('-' :: (w2 ++ ds)) = ['-'] ++ (w2 ++ ds) from rfl,
        List.getLast?_append_of_ne_nil ['-'] hds_app,
        List.getLast?_append_of_ne_nil w2 hds_ne] at hc
      exact isSpaceCh_of_digit (hds c (List.mem_of_mem_getLast? hc))
  have hmap : (pre ++ (w1 ++ '-' :: (w2 ++ ds))).map upperCh =
      pre.map upperCh ++ (w1 ++ '-' :: (w2 ++ ds)) := by
    rw [List.map_append, List.map_append, List.map_cons, List.map_append]
    rw [map_upperCh_id (fun c hc => upperCh_of_space (hw1 c hc)),
      map_upperCh_id (fun c hc => upperCh_of_space (hw2 c hc)),
      map_upperCh_id (fun c hc => upperCh_of_digit (hds c hc)),
      show upperCh '-' = '-' from by decide]
  have hsub : hyphenSub (pre.map upperCh ++ (w1 ++ '-' :: (w2 ++ ds))) =
      pre.map upperCh ++ '-' :: ds := by
    apply hyphenSub_shape
    · intro c hc
      rcases List.mem_map.mp hc with ⟨a, ha, rfl⟩
      exact ⟨upperCh_word_not_space (hpre a ha), upperCh_word_ne_hyphen (hpre a ha)⟩
    · exact hw1
    · exact hw2
    · exact fun c hc => ⟨isSpaceCh_of_digit (hds c hc), digit_ne_hyphen (hds c hc)⟩
  rw [normalizeMatch, hstrip, hmap, hsub]

/-! ## Python max: first maximal element wins -/

/-- The fold backing `pyMaxConf` returns the first element of `b :: rest`
attaining the maximal confidence: everything before it is strictly smaller,
everything overall is at most it. -/
lemma foldl_max_first (rest : List NafdacCandidate) (b : NafdacCandidate) :
    ∃ pre suf,
      b :: rest = pre ++
        (rest.foldl (fun best x => if best.confidence < x.confidence then x else best) b)
        :: suf ∧
      (∀ d ∈ pre, d.confidence <
        (rest.foldl (fun best x => if best.confidence < x.confidence then x else best)
          b).confidence) ∧
      (∀ d ∈ b :: rest, d.confidence ≤
        (rest.foldl (fun best x => if best.confidence < x.confidence then x else best)
          b).confidence) := by
  induction rest generalizing b with
  | nil => exact ⟨[], [], rfl, by simp, by simp⟩
  | cons x xs ih =>
    by_cases hlt : b.confidence < x.confidence
    · have hstep : (x :: xs).foldl
          (fun best x => if best.confidence < x.confidence then x else best) b =
          xs.foldl (fun best x => if best.confidence < x.confidence then x else best) x := by
        simp [List.foldl_cons, hlt]
      obtain ⟨pre, suf, hdec, hpre, hle⟩ := ih x
      have hxr : x.confidence ≤
          (xs.foldl (fun best x => if best.confidence < x.confidence then x else best)
            x).confidence := hle x (by simp)
      refine ⟨b :: pre, suf, ?_, ?_, ?_⟩
      · rw [hstep, List.cons_append, ← hdec]
      · intro d hd
        rw [hstep]
        rcases List.mem_cons.mp hd with rfl | hd
        · exact lt_of_lt_of_le hlt hxr
        · exact hpre d hd
      · intro d hd
        rw [hstep]
        rcases List.mem_cons.mp hd with rfl | hd
        · exact le_of_lt (lt_of_lt_of_le hlt hxr)
        · exact hle d hd
    · have hstep : (x :: xs).foldl
          (fun best x => if best.confidence < x.confidence then x else best) b =
          xs.foldl (fun best x => if best.confidence < x.confidence then x else best) b := by
        simp [List.foldl_cons, hlt]
      have hxb : x.confidence ≤ b.confidence := le_of_not_lt hlt
      obtain ⟨pre, suf, hdec, hpre, hle⟩ := ih b
      have hbr : b.confidence ≤
          (xs.foldl (fun best x => if best.confidence < x.confidence then x else best)
            b).confidence := hle b (by simp)
      cases pre with
      | nil =>
        have hr : xs.foldl (fun best x => if best.confidence < x.confidence then x else best)
            b = b := by
          have := (List.cons_eq_cons.mp (by simpa using hdec)).1
          exact this.symm
        refine ⟨[], x :: xs, ?_, by simp, ?_⟩
        · rw [hstep, hr]
          rfl
        · intro d hd
          rw [hstep, hr]
          rcases List.mem_cons.mp hd with rfl | hd
          · exact le_rfl
          · rcases List.mem_cons.mp hd with rfl | hd
            · exact hxb
            · exact hr ▸ hle d (List.mem_cons_of_mem _ hd)
      | cons p pre'' =>
        obtain ⟨hp, hxs⟩ := List.cons_eq_cons.mp (by simpa using hdec)
        have hbp : b.confidence <
            (xs.foldl (fun best x => if best.confidence < x.confidence then x else best)
              b).confidence := hp ▸ hpre p (by simp)
        refine ⟨b :: x :: pre'', suf, ?_, ?_, ?_⟩
        · rw [hstep, List.cons_append, List.cons_append, ← hxs]
        · intro d hd
          rw [hstep]
          rcases List.mem_cons.mp hd with rfl | hd
          · exact hbp
          · rcases List.mem_cons.mp hd with rfl | hd
            · exact lt_of_le_of_lt hxb hbp
            · exact hpre d (by simp [hd])
        · intro d hd
          rw [hstep]
          rcases List.mem_cons.mp hd with rfl | hd
          · exact le_of_lt hbp
          · rcases List.mem_cons.mp hd with rfl | hd
            · exact le_of_lt (lt_of_le_of_lt hxb hbp)
            · exact hle d (List.mem_cons_of_mem _ hd)

lemma get_dummy_success (n : Option String) :
    (get_dummy_validation_result n).success = true := by
  unfold get_dummy_validation_result
  split <;> rfl

/-- The candidates of a single LINE block are the normalized matches of its
text, each tagged with the block's confidence. -/
lemma nafdacCandidates_single (text : String) (conf : ℚ) :
    nafdacCandidates [⟨"LINE", text, conf⟩] =
      (lineMatches text).map (fun m => ⟨(normalizeMatch m).asString, conf⟩) := by
  simp [nafdacCandidates, lineBlocks]

/-! ## Claim theorems -/

/-- C1, counterexample: a well-formed Matching Stage input (verificationId
and timestamp present) carrying neither a registration number nor a product
name yields a 200 response whose ValidationResult has `success = false`
(were the response a 400, the match below would produce `true`), refuting
the claim that the nothing-to-search verdict has `success = true`. -/
theorem c1_counterexample :
    (match (lambda_handler
        ⟨some "v-1", some "2024-01-01T00:00:00", some "images/k.jpg", none, none⟩
        .timeoutNoResults 0).1 with
     | .ok r => r.validationResult.success
     | .badRequest _ => true) = false := by decide

/-- C1, amended: for every well-formed Matching Stage invocation with
neither a registration number nor a product name, the stage returns a
normal (non-error) 200 response carrying the "nothing to search" verdict
and still writes a record, but that verdict's `success` field is `false`,
not `true`. -/
theorem c1_nothing_to_search (body : ValidatorRequest) (session : SessionOutcome)
    (now : Nat) (hv : pyTruthy body.verificationId = true)
    (ht : pyTruthy body.timestamp = true)
    (hn : pyTruthy body.nafdacNumber = false)
    (hp : pyTruthy body.productName = false) :
    ∃ resp record, lambda_handler body session now = (.ok resp, [record]) ∧
      resp.validationResult.success = false ∧
      resp.validationResult.message = some "No NAFDAC number or product name provided" ∧
      record.validationResult = resp.validationResult := by
  simp only [lambda_handler, hv, ht, hn, hp, Bool.not_true, Bool.false_or,
    Bool.or_self, Bool.false_eq_true, if_false, Bool.not_false, if_true,
    store_verification_result]
  exact ⟨_, _, rfl, rfl, rfl, rfl⟩

theorem c1_witness :
    ∃ resp record,
      lambda_handler ⟨some "v-1", some "t-1", some "k", none, none⟩ .raises 7 =
        (.ok resp, [record]) ∧
      resp.validationResult.success = false ∧
      resp.validationResult.message = some "No NAFDAC number or product name provided" ∧
      record.validationResult = resp.validationResult :=
  c1_nothing_to_search _ _ _ (by decide) (by decide) (by decide) (by decide)

/-- C2: when the registry session raises an internal exception, the
exception is not propagated: the well-formed Matching Stage call returns a
200 response whose ValidationResult is the deterministic fallback with
`success = true`, and exactly one VerificationRecord carrying that verdict
is still written. -/
theorem c2_session_exception_fallback (body : ValidatorRequest) (now : Nat)
    (hv : pyTruthy body.verificationId = true)
    (ht : pyTruthy body.timestamp = true)
    (hs : (pyTruthy body.nafdacNumber || pyTruthy body.productName) = true) :
    ∃ resp record, lambda_handler body .raises now = (.ok resp, [record]) ∧
      resp.validationResult.success = true ∧
      resp.validationResult =
        get_dummy_validation_result (pyOr body.nafdacNumber body.productName) ∧
      record.validationResult = resp.validationResult := by
  have hscrape : scrape_nafdac_greenbook body.nafdacNumber body.productName .raises =
      get_dummy_validation_result (pyOr body.nafdacNumber body.productName) := by
    unfold scrape_nafdac_greenbook
    rcases Bool.or_eq_true_iff.mp hs with h | h <;> simp [h]
  simp only [lambda_handler, hv, ht, hs, Bool.not_true, Bool.or_self, if_false,
    Bool.false_eq_true, if_true, hscrape, store_verification_result]
  exact ⟨_, _, rfl, get_dummy_success _, rfl, rfl⟩

theorem c2_witness :
    ∃ resp record,
      lambda_handler ⟨some "v-2", some "t-2", some "k", some "A4-101466", none⟩ .raises 0 =
        (.ok resp, [record]) ∧
      resp.validationResult.success = true ∧
      resp.validationResult = get_dummy_validation_result (pyOr (some "A4-101466") none) ∧
      record.validationResult = resp.validationResult :=
  c2_session_exception_fallback _ _ (by decide) (by decide) (by decide)

/-- C3: when the bounded wait for the results table times out, the registry
search returns a ValidationResult with `success = true` and
`found = false`, whose message names the search type used (NAFDAC number
when a registration number was given, product name otherwise). -/
theorem c3_timeout_is_not_found (nafdacNumber productName : Option String)
    (h : (pyTruthy nafdacNumber || pyTruthy productName) = true) :
    (scrape_nafdac_greenbook nafdacNumber productName .timeoutNoResults).success = true ∧
    (scrape_nafdac_greenbook nafdacNumber productName .timeoutNoResults).found = some false ∧
    (scrape_nafdac_greenbook nafdacNumber productName .timeoutNoResults).searchType =
      some (if pyTruthy nafdacNumber then "NAFDAC number" else "product name") ∧
    (scrape_nafdac_greenbook nafdacNumber productName .timeoutNoResults).message =
      some ("Product not found in NAFDAC Greenbook (searched by "
        ++ (if pyTruthy nafdacNumber then "NAFDAC number" else "product name") ++ ")") := by
  unfold scrape_nafdac_greenbook
  rcases Bool.or_eq_true_iff.mp h with h1 | h1 <;> cases h2 : pyTruthy nafdacNumber <;>
    simp_all

theorem c3_witness :
    (scrape_nafdac_greenbook none (some "Paracetamol") .timeoutNoResults).success = true ∧
    (scrape_nafdac_greenbook none (some "Paracetamol") .timeoutNoResults).found = some false ∧
    (scrape_nafdac_greenbook none (some "Paracetamol") .timeoutNoResults).searchType =
      some "product name" ∧
    (scrape_nafdac_greenbook none (some "Paracetamol") .timeoutNoResults).message =
      some "Product not found in NAFDAC Greenbook (searched by product name)" := by
  have h := c3_timeout_is_not_found none (some "Paracetamol") (by decide)
  simpa using h

/-- C4: every registration-number match found in a recognized line has the
pattern shape (word-character head, optional whitespace, hyphen, optional
whitespace, digit suffix), and the candidate the stage records for it is
that match normalized: upper-cased head, a single hyphen with no
surrounding whitespace, no whitespace anywhere; when the line's matches are
exactly that one match, the Extraction Stage returns exactly the
normalized number. -/
theorem c4_hyphen_normalized (text : String) (conf : ℚ) (m : List Char)
    (hm : m ∈ lineMatches text) :
    (∃ pre w1 w2 ds, MatchShape pre w1 w2 ds m ∧
      normalizeMatch m = pre.map upperCh ++ '-' :: ds) ∧
    (⟨(normalizeMatch m).asString, conf⟩ : NafdacCandidate) ∈
      nafdacCandidates [⟨"LINE", text, conf⟩] ∧
    (∀ c ∈ normalizeMatch m, isSpaceCh c = false) ∧
    (lineMatches text = [m] →
      (extract_nafdac_number_ocr (.ok [⟨"LINE", text, conf⟩]) true .error).nafdacNumber =
        some (normalizeMatch m).asString) := by
  obtain ⟨pre, w1, w2, ds, hshape⟩ := lineMatches_shape hm
  have hnorm := normalizeMatch_of_shape hshape
  have hpre := hshape.2.2.2.1
  have hds := hshape.2.2.2.2.2.2
  refine ⟨⟨pre, w1, w2, ds, hshape, hnorm⟩, ?_, ?_, ?_⟩
  · rw [nafdacCandidates_single]
    exact List.mem_map.mpr ⟨m, hm, rfl⟩
  · intro c hc
    rw [hnorm] at hc
    rcases List.mem_append.mp hc with hc | hc
    · rcases List.mem_map.mp hc with ⟨a, ha, rfl⟩
      exact upperCh_word_not_space (hpre a ha)
    · rcases List.mem_cons.mp hc with rfl | hc
      · decide
      · exact isSpaceCh_of_digit (hds c hc)
  · intro hsingle
    have hcand : nafdacCandidates [⟨"LINE", text, conf⟩] =
        [⟨(normalizeMatch m).asString, conf⟩] := by
      rw [nafdacCandidates_single, hsingle]
      rfl
    simp [extract_nafdac_number_ocr, hcand, pyMaxConf]

theorem c4_witness :
    ("B4 - 1650".data ∈ lineMatches "B4 - 1650") ∧
    (extract_nafdac_number_ocr (.ok [⟨"LINE", "B4 - 1650", 90⟩]) true .error).nafdacNumber =
      some "B4-1650" := by
  have h := c4_hyphen_normalized "B4 - 1650" 90 ("B4 - 1650".data) (by decide)
  refine ⟨by decide, ?_⟩
  rw [h.2.2.2 (by decide)]
  decide

/-- C5: when the candidate scan found at least one pattern match, the
Extraction Stage returns the candidate with the highest per-line
confidence; on ties the first candidate in scan order wins (everything
before the selected candidate is strictly smaller, everything overall is at
most it), and the stage's returned number is the selected candidate's. -/
theorem c5_highest_confidence_first (blocks : List TextBlock) (best : NafdacCandidate)
    (h : pyMaxConf (nafdacCandidates blocks) = some best) :
    best ∈ nafdacCandidates blocks ∧
    (∀ d ∈ nafdacCandidates blocks, d.confidence ≤ best.confidence) ∧
    (∃ pre suf, nafdacCandidates blocks = pre ++ best :: suf ∧
      ∀ d ∈ pre, d.confidence < best.confidence) ∧
    (∀ (hasImage : Bool) (bedrock : BedrockOutcome),
      (extract_nafdac_number_ocr (.ok blocks) hasImage bedrock).nafdacNumber =
        some best.number) := by
  have hx : ∀ (hasImage : Bool) (bedrock : BedrockOutcome),
      (extract_nafdac_number_ocr (.ok blocks) hasImage bedrock).nafdacNumber =
        some best.number := by
    intro hi bed
    simp [extract_nafdac_number_ocr, h]
  cases hl : nafdacCandidates blocks with
  | nil =>
    rw [hl] at h
    simp [pyMaxConf] at h
  | cons c rest =>
    rw [hl] at h
    simp only [pyMaxConf, Option.some_inj] at h
    obtain ⟨pre, suf, hdec, hpre, hle⟩ := foldl_max_first rest c
    rw [h] at hdec hpre hle
    refine ⟨?_, hle, ⟨pre, suf, hdec, hpre⟩, hx⟩
    rw [hdec]
    exact List.mem_append_right _ (by simp)

theorem c5_witness :
    pyMaxConf (nafdacCandidates
      [⟨"LINE", "A4-101466", 91.2⟩, ⟨"LINE", "B7-22222", 95⟩]) =
      some ⟨"B7-22222", 95⟩ ∧
    (extract_nafdac_number_ocr
      (.ok [⟨"LINE", "A4-101466", 91.2⟩, ⟨"LINE", "B7-22222", 95⟩])
      true .error).nafdacNumber = some "B7-22222" := by
  have h1 : lineMatches "A4-101466" = ["A4-101466".data] := by decide
  have h2 : lineMatches "B7-22222" = ["B7-22222".data] := by decide
  have h3 : (normalizeMatch "A4-101466".data).asString = "A4-101466" := by decide
  have h4 : (normalizeMatch "B7-22222".data).asString = "B7-22222" := by decide
  have hc : nafdacCandidates [⟨"LINE", "A4-101466", (91.2 : ℚ)⟩, ⟨"LINE", "B7-22222", (95 : ℚ)⟩] =
      [⟨"A4-101466", (91.2 : ℚ)⟩, ⟨"B7-22222", (95 : ℚ)⟩] := by
    simp [nafdacCandidates, lineBlocks, h1, h2, h3, h4]
  have hm : pyMaxConf (nafdacCandidates
      [⟨"LINE", "A4-101466", (91.2 : ℚ)⟩, ⟨"LINE", "B7-22222", (95 : ℚ)⟩]) =
      some ⟨"B7-22222", (95 : ℚ)⟩ := by
    rw [hc]
    simp only [pyMaxConf, List.foldl]
    rw [if_pos (by norm_num)]
  exact ⟨hm, (c5_highest_confidence_first _ _ hm).2.2.2 true .error⟩

/-- C6: when the request carries a (truthy) operator-supplied registration
number, the Extraction Stage never invokes text recognition (second
component `false`) and returns that number verbatim with null confidence
and null raw text. -/
theorem c6_operator_number_trusted (req : ImageRequest) (verificationId timestamp : String)
    (textract : Except Unit (List TextBlock)) (bedrock : BedrockOutcome) (s : String)
    (himg : req.image ≠ "") (hn : req.nafdacNumber = some s) (hs : s ≠ "") :
    imageHandler req verificationId timestamp textract bedrock =
      ({ statusCode := 200, error := none,
         resp := some
           { verificationId := verificationId, timestamp := timestamp,
             imageKey := "images/" ++ timestamp ++ "_" ++ verificationId ++ ".jpg",
             nafdacNumber := some s, productName := none,
             ocrConfidence := none, extractedText := none } }, false) := by
  have htruthy : pyTruthy req.nafdacNumber = true := by
    simp [pyTruthy, hn, hs]
  simp [imageHandler, himg, htruthy, hn, pyTruthy, hs]

theorem c6_witness :
    imageHandler ⟨"aW1n", some "A4-101466"⟩ "v-6" "t-6" (.error ()) .error =
      ({ statusCode := 200, error := none,
         resp := some
           { verificationId := "v-6", timestamp := "t-6",
             imageKey := "images/t-6_v-6.jpg",
             nafdacNumber := some "A4-101466", productName := none,
             ocrConfidence := none, extractedText := none } }, false) :=
  c6_operator_number_trusted _ _ _ _ _ _ (by decide) rfl (by decide)

/-- C7, counterexample: for the spec's example model output, the stage
returns the whole first line, which is not the bare name the spec's example
promises. -/
theorem c7_counterexample :
    extract_product_name_with_bedrock (.ok "Lisinopril 10mg Tablets\nTrust me")
        = some "Lisinopril 10mg Tablets" ∧
    ("Lisinopril 10mg Tablets" : String) ≠ "Lisinopril" :=
  ⟨by decide, by decide⟩

/-- C7, amended: a failed AI call yields a null product name with no
exception; a successful call yields the first line of the model output
after the whole output is trimmed of surrounding whitespace and quotes
(never empty, never containing a newline); and the Extraction Stage uses
exactly this value when no pattern was found. -/
theorem c7_product_name_first_line (output : String) :
    extract_product_name_with_bedrock .error = none ∧
    (∀ s, extract_product_name_with_bedrock (.ok output) = some s →
      s.data = takeFirstLine (pyStripSet isQuoteCh (pyStrip output.data)) ∧
      s ≠ "" ∧ ∀ c ∈ s.data, c ≠ '\n') ∧
    (∀ blocks bedrock, nafdacCandidates blocks = [] →
      (extract_nafdac_number_ocr (.ok blocks) true bedrock).productName
        = extract_product_name_with_bedrock bedrock) := by
  refine ⟨rfl, ?_, ?_⟩
  · intro s hsome
    simp only [extract_product_name_with_bedrock] at hsome
    split at hsome
    · exact absurd hsome (by simp)
    · rename_i hne
      have hsdata : s = (takeFirstLine (pyStripSet isQuoteCh (pyStrip output.data))).asString :=
        (Option.some_inj.mp hsome).symm
      subst hsdata
      refine ⟨rfl, hne, ?_⟩
      intro c hc hcontra
      have := List.mem_takeWhile_imp (p := fun c => c != '\n') hc
      simp [hcontra] at this
  · intro blocks bedrock hempty
    simp [extract_nafdac_number_ocr, hempty, pyMaxConf]

theorem c7_witness :
    extract_product_name_with_bedrock .error = none ∧
    ("Lisinopril 10mg Tablets" : String).data =
      takeFirstLine (pyStripSet isQuoteCh
        (pyStrip ("Lisinopril 10mg Tablets\nTrust me" : String).data)) ∧
    ("Lisinopril 10mg Tablets" : String) ≠ "" := by
  obtain ⟨h1, h2, -⟩ := c7_product_name_first_line "Lisinopril 10mg Tablets\nTrust me"
  obtain ⟨ha, hb, -⟩ := h2 "Lisinopril 10mg Tablets" (by decide)
  exact ⟨h1, ha, hb⟩

/-- C8: every well-formed Matching Stage call writes exactly one
VerificationRecord, containing the identifier, timestamp, image key, the
ValidationResult just computed, and the fixed 90-day retention horizon;
the registration-number attribute is present exactly when the number is
truthy, and omitted (never a placeholder) when it is absent. -/
theorem c8_exactly_one_record (body : ValidatorRequest) (session : SessionOutcome)
    (now : Nat) (hv : pyTruthy body.verificationId = true)
    (ht : pyTruthy body.timestamp = true) :
    ∃ resp record, lambda_handler body session now = (.ok resp, [record]) ∧
      record.verificationId = body.verificationId.getD "" ∧
      record.timestamp = body.timestamp.getD "" ∧
      record.imageKey = body.imageKey ∧
      record.validationResult = resp.validationResult ∧
      record.ttl = now + 90 * 24 * 60 * 60 ∧
      (pyTruthy body.nafdacNumber = true → record.nafdacNumber = body.nafdacNumber) ∧
      (pyTruthy body.nafdacNumber = false → record.nafdacNumber = none) := by
  simp only [lambda_handler, hv, ht, Bool.not_true, Bool.or_self, Bool.false_eq_true,
    if_false, store_verification_result]
  refine ⟨_, _, rfl, rfl, rfl, rfl, rfl, rfl, ?_, ?_⟩
  · intro h; simp [h]
  · intro h; simp [h]

theorem c8_witness :
    ∃ resp record,
      lambda_handler ⟨some "v-8", some "t-8", some "k-8", none, some "Paracetamol"⟩
          .timeoutNoResults 100 = (.ok resp, [record]) ∧
      record.verificationId = "v-8" ∧ record.timestamp = "t-8" ∧
      record.imageKey = some "k-8" ∧
      record.validationResult = resp.validationResult ∧
      record.ttl = 100 + 90 * 24 * 60 * 60 ∧
      record.nafdacNumber = none := by
  obtain ⟨resp, record, heq, h1, h2, h3, h4, h5, -, h7⟩ :=
    c8_exactly_one_record ⟨some "v-8", some "t-8", some "k-8", none, some "Paracetamol"⟩
      .timeoutNoResults 100 (by decide) (by decide)
  exact ⟨resp, record, heq, h1, h2, h3, h4, h5, h7 (by decide)⟩

/-- C9: when the Extraction Stage signals failure (non-200 status), the
Orchestrator surfaces the extraction response verbatim and never invokes
the Matching Stage (second component `false`). -/
theorem c9_extraction_failure_short_circuits (imageResult : ImageHandlerOutput)
    (validator : WorkflowDownstream) (h : imageResult.statusCode ≠ 200) :
    workflowHandler imageResult validator = (.fromExtraction imageResult, false) := by
  simp [workflowHandler, h]

theorem c9_witness :
    (imageHandler ⟨"", none⟩ "v-9" "t-9" (.error ()) .error).1.statusCode ≠ 200 ∧
    workflowHandler (imageHandler ⟨"", none⟩ "v-9" "t-9" (.error ()) .error).1
        (.ok (.badRequest "unused")) =
      (.fromExtraction (imageHandler ⟨"", none⟩ "v-9" "t-9" (.error ()) .error).1, false) :=
  ⟨by decide, c9_extraction_failure_short_circuits _ _ (by decide)⟩

/-- C10: every candidate number recorded from text recognition contains no
lowercase letter (pattern matching is case-insensitive and the matched
substring is upper-cased before normalization), and a recognized line
containing the lowercase `a4-101466` yields registration number
`A4-101466`. -/
theorem c10_uppercase_matching (blocks : List TextBlock) (cand : NafdacCandidate)
    (hc : cand ∈ nafdacCandidates blocks) :
    (∀ c ∈ cand.number.data, isLowerAlpha c = false) ∧
    (extract_nafdac_number_ocr (.ok [⟨"LINE", "a4-101466", 95⟩]) true .error).nafdacNumber =
      some "A4-101466" := by
  constructor
  · rcases List.mem_flatMap.mp hc with ⟨b, -, hcb⟩
    rcases List.mem_map.mp hcb with ⟨m, hm, rfl⟩
    intro c hcmem
    have hms : m ∈ lineMatches b.text := hm
    obtain ⟨pre, w1, w2, ds, hshape⟩ := lineMatches_shape hms
    have hnorm := normalizeMatch_of_shape hshape
    obtain ⟨-, -, -, -, -, -, hds⟩ := hshape
    have : c ∈ normalizeMatch m := hcmem
    rw [hnorm] at this
    rcases List.mem_append.mp this with hmm | hmm
    · rcases List.mem_map.mp hmm with ⟨a, -, rfl⟩
      exact isLowerAlpha_upperCh a
    · rcases List.mem_cons.mp hmm with rfl | hmm
      · decide
      · exact isLowerAlpha_of_digit (hds c hmm)
  · have h1 : lineMatches "a4-101466" = ["a4-101466".data] := by decide
    have h3 : (normalizeMatch "a4-101466".data).asString = "A4-101466" := by decide
    have hcand : nafdacCandidates [⟨"LINE", "a4-101466", (95 : ℚ)⟩] =
        [⟨"A4-101466", (95 : ℚ)⟩] := by
      rw [nafdacCandidates_single, h1]
      simp [h3]
    simp [extract_nafdac_number_ocr, hcand, pyMaxConf]

theorem c10_witness :
    (⟨"A4-101466", (95 : ℚ)⟩ : NafdacCandidate) ∈
      nafdacCandidates [⟨"LINE", "a4-101466", (95 : ℚ)⟩] ∧
    (∀ c ∈ ("A4-101466" : String).data, isLowerAlpha c = false) ∧
    (extract_nafdac_number_ocr (.ok [⟨"LINE", "a4-101466", 95⟩]) true .error).nafdacNumber =
      some "A4-101466" := by
  have hmem : (⟨"A4-101466", (95 : ℚ)⟩ : NafdacCandidate) ∈
      nafdacCandidates [⟨"LINE", "a4-101466", (95 : ℚ)⟩] := by decide
  have h := c10_uppercase_matching _ _ hmem
  exact ⟨hmem, h.1, h.2⟩

end DrugVerification
